import Mathlib

set_option maxRecDepth 10000

/-!
Shallow embedding of the canadensis requester
(src/canadensis/src/requester.rs) and of the queue-only CAN driver
(src/canadensis_can/src/queue/queue_only_driver.rs).

Supporting types from canadensis_core / canadensis_can whose source files are
not part of this repository snapshot (NodeId, TransferId, Priority, ServiceId,
the transfer header types, OutOfMemoryError, the nb error type, Frame,
Subscription and the ArrayQueue priority frame queue) are modelled from the
specification; each such definition carries a doc comment saying so.

Machine integers are represented as Nat with explicit wrap-around where the
protocol requires it (the 5-bit transfer-ID space, modulo 32).  Rust panics
(out-of-bounds indexing) are represented by Option, with none standing for a
panic.  Mutation is represented by explicit state passing: every operation
returns the updated structure.
-/

/-- Modelled from the spec (canadensis_core::OutOfMemoryError, source file not
under src/): the explicit out-of-memory signal returned when a bounded
insertion cannot be satisfied (spec section 3, global invariant). -/
inductive OutOfMemoryError where
  | mk
deriving DecidableEq

/-- Modelled from the spec (canadensis_core::NodeId, source file not under
src/): a node identifier.  UAVCAN-style CAN node IDs are 7-bit values, so the
valid IDs are 0..=127 and NodeId::MAX has numeric value 127. -/
structure NodeId where
  val : Nat
  le_max : val ≤ 127

/-- Modelled from the spec: the largest allowed node ID. -/
def NodeId.MAX : NodeId :=
  ⟨127, Nat.le_refl 127⟩

/-- Modelled from the spec: NodeId::to_u8 exposes the numeric value. -/
def NodeId.to_u8 (n : NodeId) : Nat :=
  n.val

/-- Modelled from the spec: usize::from(node_id) is the numeric value,
used by the requester to index its per-destination counter array. -/
def usizeFrom (n : NodeId) : Nat :=
  n.val

theorem NodeId.val_injective {a b : NodeId} (h : a.val = b.val) : a = b := by
  cases a with
  | mk va ha =>
    cases b with
    | mk vb hb =>
      have hv : va = vb := h
      subst hv
      rfl

instance : DecidableEq NodeId := fun a b =>
  decidable_of_iff (a.val = b.val) ⟨NodeId.val_injective, congrArg NodeId.val⟩

/-- Modelled from the spec (canadensis_core::TransferId, source file not under
src/): a transfer identifier in the 5-bit identifier space (spec section 3:
a 5-bit transfer-ID, modulo 32). -/
abbrev TransferId := Nat

/-- Modelled from the spec: the default transfer ID is 0 (the ledger counters
start at 0). -/
def TransferId.default : TransferId := 0

/-- Modelled from the spec: incrementing a transfer ID wraps modulo the
identifier space (32). -/
def TransferId.increment (t : TransferId) : TransferId :=
  (t + 1) % 32

/-- Modelled from the spec (canadensis_core::Priority, source file not under
src/): a transfer priority; its representation is opaque to the requester,
which only copies it into the transfer header. -/
abbrev Priority := Nat

/-- Modelled from the spec (canadensis_core::ServiceId, source file not under
src/): a service identifier, copied opaquely into the transfer header. -/
abbrev ServiceId := Nat

/-- Modelled from the spec (canadensis_core::transfer::ServiceHeader, source
file not under src/): the service id and destination node of a service
transfer. -/
structure ServiceHeader where
  service : ServiceId
  destination : NodeId
deriving DecidableEq

/-- Modelled from the spec (canadensis_core::transfer::TransferKindHeader,
source file not under src/): the transfer kind.  The requester only ever
builds the Request variant, which is the one modelled here. -/
inductive TransferKindHeader where
  | Request (header : ServiceHeader)
deriving DecidableEq

/-- Modelled from the spec (canadensis_core::transfer::TransferHeader, source
file not under src/): source node, priority and kind of a transfer. -/
structure TransferHeader where
  source : NodeId
  priority : Priority
  kind : TransferKindHeader
deriving DecidableEq

/-- Modelled from the spec (canadensis_core::transfer::Transfer, source file
not under src/): timestamp (used by the requester as the transmission
deadline), header, transfer id and payload bytes. -/
structure Transfer where
  timestamp : Nat
  header : TransferHeader
  transfer_id : TransferId
  payload : List Nat
deriving DecidableEq

/-- From src/canadensis/src/requester.rs: a map from destination node IDs to
transfer IDs of the next transfer.  The source declares the array as
ids: [TransferId; NodeId::MAX.to_u8() as usize], i.e. 127 entries. -/
structure NextTransferIds where
  ids : List TransferId
deriving DecidableEq

/-- From src/canadensis/src/requester.rs: NextTransferIds::new creates the
array of NodeId::MAX.to_u8() entries, each holding the default transfer ID. -/
def NextTransferIds.new : NextTransferIds :=
  ⟨List.replicate (NodeId.to_u8 NodeId.MAX) TransferId.default⟩

/-- From src/canadensis/src/requester.rs: NextTransferIds::get_and_increment.
The source indexes self.ids[usize::from(destination)], returns the current
entry and stores its increment.  An out-of-bounds index panics in Rust; the
embedding returns none in that case. -/
def NextTransferIds.get_and_increment (m : NextTransferIds) (destination : NodeId) :
    Option (TransferId × NextTransferIds) :=
  if h : usizeFrom destination < m.ids.length then
    some (m.ids.get ⟨usizeFrom destination, h⟩,
      ⟨m.ids.set (usizeFrom destination)
        (TransferId.increment (m.ids.get ⟨usizeFrom destination, h⟩))⟩)
  else
    none

/-- From src/canadensis/src/requester.rs: the Requester state (node id,
priority, timeout and the per-destination transfer-ID ledger).  The time
instant and duration types are represented as Nat. -/
structure Requester where
  this_node : NodeId
  priority : Priority
  timeout : Nat
  next_transfer_ids : NextTransferIds
deriving DecidableEq

/-- From src/canadensis/src/requester.rs: Requester::new. -/
def Requester.new (this_node : NodeId) (timeout : Nat) (priority : Priority) :
    Requester :=
  { this_node := this_node, priority := priority, timeout := timeout,
    next_transfer_ids := NextTransferIds.new }

/-- From src/canadensis/src/requester.rs: Requester::send_payload.  The
Transmitter collaborator is represented abstractly by its push operation: a
function from the transfer and the transmitter state to the new transmitter
state and the Result of the push.  The source takes the next transfer ID from
the ledger (mutating it), assembles the transfer and returns transmitter.push
on it; none models the panic inside get_and_increment. -/
def Requester.send_payload {σ : Type} (r : Requester) (payload : List Nat)
    (service : ServiceId) (destination : NodeId) (deadline : Nat)
    (push : Transfer → σ → σ × Except OutOfMemoryError Unit) (tx : σ) :
    Option (Requester × σ × Except OutOfMemoryError Unit) :=
  match r.next_transfer_ids.get_and_increment destination with
  | none => none
  | some (transfer_id, ids) =>
    let transfer : Transfer :=
      { timestamp := deadline,
        header :=
          { source := r.this_node,
            priority := r.priority,
            kind := TransferKindHeader.Request
              { service := service, destination := destination } },
        transfer_id := transfer_id,
        payload := payload }
    some ({ r with next_transfer_ids := ids }, push transfer tx)

/-- Modelled from the spec (canadensis::do_serialize, source file not under
src/): byte-level serialization of typed payloads is out of scope (spec
section 6, application boundary), so the serialized byte sequence is taken as
given and passed to the continuation. -/
def do_serialize {α : Type} (payload_bytes : List Nat) (f : List Nat → α) : α :=
  f payload_bytes

/-- From src/canadensis/src/requester.rs: Requester::send computes
deadline = self.timeout + now, serializes the payload and calls send_payload
on the serialized bytes. -/
def Requester.send {σ : Type} (r : Requester) (now : Nat) (service : ServiceId)
    (payload_bytes : List Nat) (destination : NodeId)
    (push : Transfer → σ → σ × Except OutOfMemoryError Unit) (tx : σ) :
    Option (Requester × σ × Except OutOfMemoryError Unit) :=
  let deadline := r.timeout + now
  do_serialize payload_bytes (fun bytes =>
    r.send_payload bytes service destination deadline push tx)

/-- Modelled from the spec (canadensis_can::Frame, source file not under
src/): a timestamp, a CAN identifier (whose numeric value decides bus
arbitration: lower value = higher priority) and payload bytes
(spec section 3, Frame). -/
structure Frame where
  timestamp : Nat
  can_id : Nat
  payload : List Nat
deriving DecidableEq

/-- Modelled from the spec (canadensis_core::subscription::Subscription,
source file not under src/): a filter entry (a source/kind/subject-or-service
combination of interest, spec section 6).  The driver stores entries opaquely,
so the representation is an abstract token. -/
abbrev Subscription := Nat

/-- Modelled from core::convert::Infallible: the empty error type used by the
queue-only driver for its nb error parameter. -/
abbrev Infallible := Empty

instance : DecidableEq Infallible := fun a _ => a.elim

/-- Modelled from the nb crate (external collaborator): nb::Error, either a
would-block signal or an underlying error. -/
inductive NbError (E : Type) where
  | wouldBlock
  | other (e : E)
deriving DecidableEq

/-- From src/canadensis_can/src/queue/queue_only_driver.rs: the cmp of the
spec's Priority Frame Queue order (spec section 4.1): the frame with the
lowest arbitration value wins; among equal priorities first-enqueued stays
first (the new frame goes after every frame of smaller or equal value). -/
def insertByPriority (f : Frame) : List Frame → List Frame
  | [] => [f]
  | g :: rest =>
    if g.can_id ≤ f.can_id then g :: insertByPriority f rest
    else f :: g :: rest

/-- Modelled from the spec (canadensis_can::queue::ArrayQueue, source file not
under src/): the bounded Priority Frame Queue of spec section 4.1, with fixed
capacity TC. -/
structure ArrayQueue (TC : Nat) where
  frames : List Frame
deriving DecidableEq

/-- Modelled from the spec (ArrayQueue::new): an empty queue. -/
def ArrayQueue.new {TC : Nat} : ArrayQueue TC :=
  ⟨[]⟩

/-- Modelled from the spec (ArrayQueue::push_frame, spec section 4.1): push
fails with OutOfMemory when the queue is full, otherwise inserts the frame at
its priority position. -/
def ArrayQueue.push_frame {TC : Nat} (q : ArrayQueue TC) (f : Frame) :
    Except OutOfMemoryError (ArrayQueue TC) :=
  if q.frames.length < TC then
    Except.ok ⟨insertByPriority f q.frames⟩
  else
    Except.error OutOfMemoryError.mk

/-- From src/canadensis_can/src/queue/queue_only_driver.rs: the
QueueOnlyDriver state.  The heapless receive deque of capacity RC is
represented as a list whose head is the front; the subscription Vec as a
list. -/
structure QueueOnlyDriver (TC RC : Nat) where
  tx_queue : ArrayQueue TC
  rx_queue : List Frame
  subscriptions : List Subscription
deriving DecidableEq

/-- From src/canadensis_can/src/queue/queue_only_driver.rs:
QueueOnlyDriver::new. -/
def QueueOnlyDriver.new {TC RC : Nat} : QueueOnlyDriver TC RC :=
  { tx_queue := ArrayQueue.new, rx_queue := [], subscriptions := [] }

/-- From src/canadensis_can/src/queue/queue_only_driver.rs:
QueueOnlyDriver::push_rx_frame pushes onto the back of the receive deque,
mapping the deque's capacity failure to OutOfMemoryError.  The heapless
deque (external crate) rejects a push when it already holds RC elements and
leaves the deque unchanged. -/
def QueueOnlyDriver.push_rx_frame {TC RC : Nat} (d : QueueOnlyDriver TC RC)
    (frame : Frame) : QueueOnlyDriver TC RC × Except OutOfMemoryError Unit :=
  if d.rx_queue.length < RC then
    ({ d with rx_queue := d.rx_queue ++ [frame] }, Except.ok ())
  else
    (d, Except.error OutOfMemoryError.mk)

/-- From src/canadensis_can/src/queue/queue_only_driver.rs:
ReceiveDriver::receive, which is self.rx_queue.pop_front().ok_or(WouldBlock). -/
def QueueOnlyDriver.receive {TC RC : Nat} (d : QueueOnlyDriver TC RC)
    (_now : Nat) : QueueOnlyDriver TC RC × Except (NbError Infallible) Frame :=
  match d.rx_queue with
  | [] => (d, Except.error NbError.wouldBlock)
  | f :: rest => ({ d with rx_queue := rest }, Except.ok f)

/-- From src/canadensis_can/src/queue/queue_only_driver.rs:
TransmitDriver::transmit, which is
self.tx_queue.push_frame(frame).map(|_| None).map_err(|_oom| WouldBlock):
the queue's out-of-memory failure is converted to the nb WouldBlock signal. -/
def QueueOnlyDriver.transmit {TC RC : Nat} (d : QueueOnlyDriver TC RC)
    (frame : Frame) (_now : Nat) :
    QueueOnlyDriver TC RC × Except (NbError Infallible) (Option Frame) :=
  match d.tx_queue.push_frame frame with
  | Except.ok q => ({ d with tx_queue := q }, Except.ok none)
  | Except.error _ => (d, Except.error NbError.wouldBlock)

/-- From src/canadensis_can/src/queue/queue_only_driver.rs: the loop body of
ReceiveDriver::apply_filters.  Allocation outcomes of the fallible try_push
calls are supplied by the oracle alloc, indexed by the number of pushes
attempted so far; on the first failed allocation the source clears the
subscription list and breaks, leaving it empty. -/
def applyFiltersGo (alloc : Nat → Bool) :
    Nat → List Subscription → List Subscription → List Subscription
  | _, [], acc => acc
  | i, s :: rest, acc =>
    if alloc i then applyFiltersGo alloc (i + 1) rest (acc ++ [s])
    else []

/-- From src/canadensis_can/src/queue/queue_only_driver.rs:
ReceiveDriver::apply_filters clears the stored subscriptions and then
try_pushes each new subscription in order, clearing everything and stopping
at the first allocation failure. -/
def QueueOnlyDriver.apply_filters {TC RC : Nat} (d : QueueOnlyDriver TC RC)
    (_local_node : Option Nat) (alloc : Nat → Bool)
    (subs : List Subscription) : QueueOnlyDriver TC RC :=
  { d with subscriptions := applyFiltersGo alloc 0 subs [] }

/-- Helper for stating C1: the list of results of n successive
get_and_increment calls for one destination, threading the ledger state;
none if any call panics. -/
def getN : Nat → NextTransferIds → NodeId → Option (List TransferId × NextTransferIds)
  | 0, m, _ => some ([], m)
  | n + 1, m, d =>
    match m.get_and_increment d with
    | none => none
    | some (t, m₁) =>
      match getN n m₁ d with
      | none => none
      | some p => some (t :: p.1, p.2)

/-- Helper for C1: the expected result sequence of n calls starting from
counter value v. -/
def expectedSeq : Nat → TransferId → List TransferId
  | 0, _ => []
  | n + 1, v => v :: expectedSeq n (TransferId.increment v)

/-- Helper for C10: an operation on the receive path of the driver. -/
inductive RxOp where
  | push (f : Frame)
  | recv

/-- Helper for C10: run a sequence of receive-path operations against the
driver, returning the final driver state, the frames returned by the
successful receive calls (in order) and the frames accepted by the successful
push_rx_frame calls (in order). -/
def runRx {TC RC : Nat} :
    QueueOnlyDriver TC RC → List RxOp →
      QueueOnlyDriver TC RC × List Frame × List Frame
  | d, [] => (d, [], [])
  | d, RxOp.push f :: rest =>
    match d.push_rx_frame f with
    | (d₁, Except.ok _) =>
      let r := runRx d₁ rest
      (r.1, r.2.1, f :: r.2.2)
    | (d₁, Except.error _) => runRx d₁ rest
  | d, RxOp.recv :: rest =>
    match d.receive 0 with
    | (d₁, Except.ok f) =>
      let r := runRx d₁ rest
      (r.1, f :: r.2.1, r.2.2)
    | (d₁, Except.error _) => runRx d₁ rest

/-- Helper for C6: the error taxonomy of spec section 7, used to classify the
signal a driver operation reports. -/
inductive ErrorKind where
  | outOfMemory
  | wouldBlock
  | hardware
deriving DecidableEq

/-- Helper for C6: the kind of an nb error: WouldBlock is the would-block
signal; Other carries an underlying (hardware) error. -/
def NbError.kind {E : Type} : NbError E → ErrorKind
  | NbError.wouldBlock => ErrorKind.wouldBlock
  | NbError.other _ => ErrorKind.hardware

/-- Helper for C6: the kind of error reported by a transmit result, if any. -/
def txErrorKind {α : Type} : Except (NbError Infallible) α → Option ErrorKind
  | Except.error e => some (NbError.kind e)
  | Except.ok _ => none

/-- Helper: reading back an index just overwritten with a function of its old
value. -/
theorem getElem?_set_map {l : List TransferId} {i : Nat}
    (h : i < l.length) (f : TransferId → TransferId) :
    (l.set i (f (l.get ⟨i, h⟩)))[i]? = (l[i]?).map f := by
  rw [List.getElem?_eq_getElem (by simpa using h), List.getElem?_eq_getElem h]
  simp [List.getElem_set_self]

/-- Helper for C1: getN on an in-bounds destination returns exactly the
expected sequence of successively incremented transfer IDs. -/
theorem getN_fst (n : Nat) :
    ∀ (m : NextTransferIds) (d : NodeId) (h : usizeFrom d < m.ids.length),
      (getN n m d).map Prod.fst
        = some (expectedSeq n (m.ids.get ⟨usizeFrom d, h⟩)) := by
  induction n with
  | zero =>
    intro m d h
    simp [getN, expectedSeq]
  | succ n ih =>
    intro m d h
    have hgi : m.get_and_increment d
        = some (m.ids.get ⟨usizeFrom d, h⟩,
            ⟨m.ids.set (usizeFrom d)
              (TransferId.increment (m.ids.get ⟨usizeFrom d, h⟩))⟩) := by
      simp [NextTransferIds.get_and_increment, h]
    have h₁ : usizeFrom d
        < (NextTransferIds.mk (m.ids.set (usizeFrom d)
            (TransferId.increment (m.ids.get ⟨usizeFrom d, h⟩)))).ids.length := by
      simpa using h
    have ih' := ih ⟨m.ids.set (usizeFrom d)
        (TransferId.increment (m.ids.get ⟨usizeFrom d, h⟩))⟩ d h₁
    have hget : (NextTransferIds.mk (m.ids.set (usizeFrom d)
          (TransferId.increment (m.ids.get ⟨usizeFrom d, h⟩)))).ids.get
            ⟨usizeFrom d, h₁⟩
        = TransferId.increment (m.ids.get ⟨usizeFrom d, h⟩) := by
      simp [List.getElem_set_self]
    rw [hget] at ih'
    cases hg : getN n ⟨m.ids.set (usizeFrom d)
        (TransferId.increment (m.ids.get ⟨usizeFrom d, h⟩))⟩ d with
    | none =>
      rw [hg] at ih'
      simp at ih'
    | some p =>
      rw [hg] at ih'
      simp only [Option.map_some', Option.some.injEq] at ih'
      have hstep : getN (n + 1) m d
          = some (m.ids.get ⟨usizeFrom d, h⟩ :: p.1, p.2) := by
        simp only [getN, hgi, hg]
      rw [hstep, Option.map_some', ih']
      rfl

/-- Helper for C5: if every consulted allocation succeeds, the loop appends
the whole input to the accumulator. -/
theorem applyFiltersGo_all (alloc : Nat → Bool) :
    ∀ (l : List Subscription) (i : Nat) (acc : List Subscription),
      (∀ k, k < l.length → alloc (i + k) = true) →
      applyFiltersGo alloc i l acc = acc ++ l := by
  intro l
  induction l with
  | nil =>
    intro i acc _
    simp [applyFiltersGo]
  | cons s rest ih =>
    intro i acc hall
    have h0 : alloc i = true := by simpa using hall 0 (by simp)
    have hrest : ∀ k, k < rest.length → alloc (i + 1 + k) = true := by
      intro k hk
      have heq : i + 1 + k = i + (k + 1) := by omega
      rw [heq]
      exact hall (k + 1) (by simp; omega)
    rw [show applyFiltersGo alloc i (s :: rest) acc
        = applyFiltersGo alloc (i + 1) rest (acc ++ [s]) from by
      simp [applyFiltersGo, h0]]
    rw [ih (i + 1) (acc ++ [s]) hrest]
    simp

/-- Helper for C5: if the first failing allocation is within the input, the
loop returns the empty list. -/
theorem applyFiltersGo_fail (alloc : Nat → Bool) :
    ∀ (l : List Subscription) (j i : Nat) (acc : List Subscription),
      j < l.length → (∀ k, k < j → alloc (i + k) = true) →
      alloc (i + j) = false →
      applyFiltersGo alloc i l acc = [] := by
  intro l
  induction l with
  | nil =>
    intro j i acc hj _ _
    simp at hj
  | cons s rest ih =>
    intro j i acc hj hpre hj0
    cases j with
    | zero =>
      have h0 : alloc i = false := by simpa using hj0
      simp [applyFiltersGo, h0]
    | succ j' =>
      have h0 : alloc i = true := by simpa using hpre 0 (Nat.succ_pos j')
      have hpre' : ∀ k, k < j' → alloc (i + 1 + k) = true := by
        intro k hk
        have heq : i + 1 + k = i + (k + 1) := by omega
        rw [heq]
        exact hpre (k + 1) (by omega)
      have hj0' : alloc (i + 1 + j') = false := by
        have heq : i + 1 + j' = i + (j' + 1) := by omega
        rw [heq]
        exact hj0
      have hj' : j' < rest.length := by simpa using hj
      rw [show applyFiltersGo alloc i (s :: rest) acc
          = applyFiltersGo alloc (i + 1) rest (acc ++ [s]) from by
        simp [applyFiltersGo, h0]]
      exact ih j' (i + 1) (acc ++ [s]) hj' hpre' hj0'

/-- Helper for C10: the receive-path invariant.  The frames returned by
receive so far, followed by the frames still queued, equal the frames
initially queued followed by the frames accepted by push_rx_frame. -/
theorem runRx_inv {TC RC : Nat} (ops : List RxOp) :
    ∀ d : QueueOnlyDriver TC RC,
      (runRx d ops).2.1 ++ (runRx d ops).1.rx_queue
        = d.rx_queue ++ (runRx d ops).2.2 := by
  induction ops with
  | nil =>
    intro d
    simp [runRx]
  | cons op rest ih =>
    intro d
    cases op with
    | push f =>
      by_cases hc : d.rx_queue.length < RC
      · simp only [runRx, QueueOnlyDriver.push_rx_frame, if_pos hc]
        rw [ih]
        simp
      · simp only [runRx, QueueOnlyDriver.push_rx_frame, if_neg hc]
        exact ih d
    | recv =>
      cases hq : d.rx_queue with
      | nil =>
        simp only [runRx, QueueOnlyDriver.receive, hq]
        have h2 := ih d
        rw [hq] at h2
        exact h2
      | cons f rest' =>
        simp only [runRx, QueueOnlyDriver.receive, hq]
        have h2 := ih (QueueOnlyDriver.mk d.tx_queue rest' d.subscriptions)
        simp [List.cons_append, h2]

/-- C1 as stated is REFUTED at destination NodeId::MAX: there the very first
get_and_increment call indexes out of bounds and panics (the C3 defect), so
32 consecutive calls return no transfer-ID values at all, not each value in
{0..31}. -/
theorem c1_wrap_counterexample_at_max :
    (getN 32 NextTransferIds.new NodeId.MAX).map Prod.fst = none
    ∧ (getN 32 NextTransferIds.new NodeId.MAX).map Prod.fst
        ≠ some (List.range 32)
    ∧ getN 1 NextTransferIds.new NodeId.MAX = none :=
  ⟨rfl, by decide, rfl⟩

/-- C1 amended: starting from a freshly constructed requester, for every
destination other than NodeId::MAX (that is, every destination whose index is
within the counter array), 32 consecutive get_and_increment calls return each
transfer-ID value 0,1,...,31 exactly once in increasing order starting at 0,
and the 33rd call returns 0 again (wrap modulo 32); at NodeId::MAX the call
panics instead (the C3 code bug). -/
theorem c1_transfer_id_wrap (d : NodeId) (h : usizeFrom d < 127) :
    (getN 32 NextTransferIds.new d).map Prod.fst = some (List.range 32)
    ∧ (getN 33 NextTransferIds.new d).map Prod.fst
        = some (List.range 32 ++ [0]) := by
  have hlen : usizeFrom d < NextTransferIds.new.ids.length := by
    simpa [NextTransferIds.new, NodeId.to_u8, NodeId.MAX] using h
  have hget : NextTransferIds.new.ids.get ⟨usizeFrom d, hlen⟩ = 0 := by
    simp [NextTransferIds.new, TransferId.default, List.getElem_replicate]
  constructor
  · rw [getN_fst 32 NextTransferIds.new d hlen, hget]
    exact congrArg some (by decide)
  · rw [getN_fst 33 NextTransferIds.new d hlen, hget]
    exact congrArg some (by decide)

/-- Witness for C1 at destination 5. -/
theorem c1_transfer_id_wrap_witness :
    (getN 32 NextTransferIds.new ⟨5, by decide⟩).map Prod.fst
        = some (List.range 32)
    ∧ (getN 33 NextTransferIds.new ⟨5, by decide⟩).map Prod.fst
        = some (List.range 32 ++ [0]) :=
  c1_transfer_id_wrap ⟨5, by decide⟩ (by decide)

/-- C2 as stated is REFUTED: a transmitter whose push fails with
OutOfMemoryError still consumes a transfer ID.  Before the call the stored
next-transfer-ID for destination 5 is 0; the call returns OutOfMemoryError
and afterwards the stored next-transfer-ID for destination 5 is 1. -/
theorem c2_counter_consumed_on_oom :
    ((Requester.new ⟨9, by decide⟩ 10 0).send_payload [1, 2] 7
        ⟨5, by decide⟩ 99 (fun _ _ => ((), Except.error OutOfMemoryError.mk))
        ()).map (fun p => (p.1.next_transfer_ids.ids[5]?, p.2.2))
      = some (some 1, Except.error OutOfMemoryError.mk)
    ∧ (Requester.new ⟨9, by decide⟩ 10 0).next_transfer_ids.ids[5]? = some 0 :=
  ⟨rfl, rfl⟩

/-- C2 amended: the per-destination counter advances (modulo 32) on every
completed send_payload call, including calls that return OutOfMemoryError:
the counter is taken from the ledger before the push, so it is consumed even
when no send is committed. -/
theorem c2_counter_advances_on_every_call {σ : Type} (r : Requester)
    (payload : List Nat) (service : ServiceId) (destination : NodeId)
    (deadline : Nat) (push : Transfer → σ → σ × Except OutOfMemoryError Unit)
    (tx : σ) (h : usizeFrom destination < r.next_transfer_ids.ids.length) :
    (r.send_payload payload service destination deadline push tx).map
        (fun p => p.1.next_transfer_ids.ids[usizeFrom destination]?)
      = some ((r.next_transfer_ids.ids[usizeFrom destination]?).map
          TransferId.increment) := by
  simp only [Requester.send_payload, NextTransferIds.get_and_increment,
    dif_pos h, Option.map_some]
  exact congrArg some (getElem?_set_map h TransferId.increment)

/-- Witness for the amended C2: the failing-push scenario of the
counterexample satisfies the amended statement. -/
theorem c2_counter_advances_witness :
    ((Requester.new ⟨9, by decide⟩ 10 0).send_payload [1, 2] 7
        ⟨5, by decide⟩ 99 (fun _ _ => ((), Except.error OutOfMemoryError.mk))
        ()).map (fun p => p.1.next_transfer_ids.ids[5]?)
      = some (((Requester.new ⟨9, by decide⟩ 10 0).next_transfer_ids.ids[5]?).map
          TransferId.increment) :=
  c2_counter_advances_on_every_call (Requester.new ⟨9, by decide⟩ 10 0) [1, 2] 7
    ⟨5, by decide⟩ 99 (fun _ _ => ((), Except.error OutOfMemoryError.mk)) ()
    (by decide)

/-- C3 is REFUTED by the code (code bug): the claim says
usize::from(destination) is strictly less than the length of the ids array for
every valid destination, including NodeId::MAX.  The array allocated by
NextTransferIds::new has NodeId::MAX.to_u8() = 127 entries, so destination =
NodeId::MAX indexes position 127 of a 127-element array: the access is out of
bounds (a panic in Rust, none in this embedding). -/
theorem c3_get_and_increment_out_of_bounds_at_max :
    NextTransferIds.new.get_and_increment NodeId.MAX = none
    ∧ usizeFrom NodeId.MAX = NextTransferIds.new.ids.length :=
  ⟨rfl, rfl⟩

/-- C4 as stated is REFUTED at destination NodeId::MAX: there send_payload
panics inside get_and_increment (the C3 defect) before assembling any
transfer, so no transfer at all is handed to push — witnessed by the call
returning none with a recording push whose state would otherwise hold the
pushed transfer. -/
theorem c4_no_transfer_pushed_at_max :
    (Requester.new ⟨9, by decide⟩ 10 0).send_payload [1] 7 NodeId.MAX 99
        (fun (t : Transfer) (l : List Transfer) => (t :: l, Except.ok ())) []
      = none :=
  rfl

/-- C4 amended: for every call whose destination is not NodeId::MAX (that is,
whose index is within the counter array), send_payload hands push exactly the
transfer whose source is the configured node ID, priority the configured
priority, kind Request with the given service and destination, transfer id
the ledger entry for that destination, timestamp the given deadline and
payload the given bytes, while advancing the ledger at that destination; at
NodeId::MAX the call panics and pushes nothing (the C3 code bug).  And send
computes the deadline as the configured timeout plus the given now. -/
theorem c4_send_payload_transfer_fields {σ : Type} (r : Requester)
    (payload : List Nat) (service : ServiceId) (destination : NodeId)
    (deadline : Nat) (push : Transfer → σ → σ × Except OutOfMemoryError Unit)
    (tx : σ) (h : usizeFrom destination < r.next_transfer_ids.ids.length)
    (now : Nat) (bytes : List Nat) :
    r.send_payload payload service destination deadline push tx
      = some
          ({ r with next_transfer_ids :=
              ⟨r.next_transfer_ids.ids.set (usizeFrom destination)
                (TransferId.increment
                  (r.next_transfer_ids.ids.get ⟨usizeFrom destination, h⟩))⟩ },
            push
              { timestamp := deadline,
                header :=
                  { source := r.this_node,
                    priority := r.priority,
                    kind := TransferKindHeader.Request
                      { service := service, destination := destination } },
                transfer_id :=
                  r.next_transfer_ids.ids.get ⟨usizeFrom destination, h⟩,
                payload := payload }
              tx)
    ∧ r.send now service bytes destination push tx
        = r.send_payload bytes service destination (r.timeout + now) push tx := by
  constructor
  · simp [Requester.send_payload, NextTransferIds.get_and_increment, dif_pos h]
  · rfl

/-- Witness for C4 with a recording transmitter. -/
theorem c4_send_payload_transfer_fields_witness :
    (Requester.new ⟨3, by decide⟩ 5 2).send_payload [9] 4 ⟨6, by decide⟩ 77
        (fun t l => (t :: l, Except.ok ())) []
      = some
          ({ this_node := ⟨3, by decide⟩, priority := 2, timeout := 5,
             next_transfer_ids := ⟨(List.replicate 127 0).set 6 1⟩ },
            ([{ timestamp := 77,
                header :=
                  { source := ⟨3, by decide⟩,
                    priority := 2,
                    kind := TransferKindHeader.Request
                      { service := 4, destination := ⟨6, by decide⟩ } },
                transfer_id := 0,
                payload := [9] }], Except.ok ()))
    ∧ (Requester.new ⟨3, by decide⟩ 5 2).send 11 4 [8] ⟨6, by decide⟩
          (fun t l => (t :: l, Except.ok ())) []
        = (Requester.new ⟨3, by decide⟩ 5 2).send_payload [8] 4 ⟨6, by decide⟩
            (5 + 11) (fun t l => (t :: l, Except.ok ())) [] :=
  c4_send_payload_transfer_fields (Requester.new ⟨3, by decide⟩ 5 2) [9] 4
    ⟨6, by decide⟩ 77 (fun t l => (t :: l, Except.ok ())) [] (by decide) 11 [8]

/-- C5: apply_filters is all-or-nothing: if every allocation succeeds, the
stored subscriptions are exactly the given sequence in order (any previously
stored subscriptions are replaced); if any allocation fails within the
sequence, the stored subscriptions are empty. -/
theorem c5_apply_filters_all_or_nothing {TC RC : Nat}
    (d : QueueOnlyDriver TC RC) (local_node : Option Nat)
    (alloc : Nat → Bool) (subs : List Subscription) :
    ((∀ i, i < subs.length → alloc i = true) →
      (d.apply_filters local_node alloc subs).subscriptions = subs)
    ∧ ((∃ j, j < subs.length ∧ alloc j = false) →
      (d.apply_filters local_node alloc subs).subscriptions = []) := by
  constructor
  · intro hall
    have := applyFiltersGo_all alloc subs 0 []
      (by intro k hk; simpa using hall k hk)
    simpa [QueueOnlyDriver.apply_filters] using this
  · intro hex
    have spec := Nat.find_spec hex
    have hpre : ∀ k, k < Nat.find hex → alloc (0 + k) = true := by
      intro k hk
      have hkl : k < subs.length := lt_trans hk spec.1
      have hnot := Nat.find_min hex hk
      simp only [hkl, true_and] at hnot
      simpa using hnot
    have := applyFiltersGo_fail alloc subs (Nat.find hex) 0 [] spec.1 hpre
      (by simpa using spec.2)
    simpa [QueueOnlyDriver.apply_filters] using this

/-- Witness for C5: all allocations succeed on a three-element sequence. -/
theorem c5_apply_filters_witness :
    ((QueueOnlyDriver.new : QueueOnlyDriver 1 1).apply_filters none
        (fun _ => true) [3, 1, 2]).subscriptions = [3, 1, 2] :=
  (c5_apply_filters_all_or_nothing QueueOnlyDriver.new none (fun _ => true)
      [3, 1, 2]).1 (fun _ _ => rfl)

/-- C6 as stated is REFUTED: with the transmit queue at capacity (capacity 1,
one frame queued), transmit reports the failure as the WouldBlock signal, not
as an out-of-memory signal: the source maps the queue's OutOfMemoryError to
nb WouldBlock. -/
theorem c6_transmit_full_not_reported_as_oom :
    txErrorKind
        ((({ tx_queue := ⟨[⟨0, 0, []⟩]⟩, rx_queue := [], subscriptions := [] } :
            QueueOnlyDriver 1 1).transmit ⟨1, 1, [1]⟩ 0).2)
      = some ErrorKind.wouldBlock
    ∧ ErrorKind.wouldBlock ≠ ErrorKind.outOfMemory :=
  ⟨rfl, by decide⟩

/-- C6 amended: when the transmit queue is at capacity, transmit reports the
failure synchronously as the nb WouldBlock signal (the queue's internal
out-of-memory is converted to WouldBlock); it is never silently dropped and
the driver state is unchanged. -/
theorem c6_transmit_full_reports_would_block {TC RC : Nat}
    (d : QueueOnlyDriver TC RC) (f : Frame) (now : Nat)
    (h : d.tx_queue.frames.length = TC) :
    d.transmit f now = (d, Except.error NbError.wouldBlock) := by
  have hnot : ¬ d.tx_queue.frames.length < TC := by omega
  simp [QueueOnlyDriver.transmit, ArrayQueue.push_frame, if_neg hnot]

/-- Witness for the amended C6 on a full capacity-1 queue. -/
theorem c6_transmit_full_witness :
    ({ tx_queue := ⟨[⟨0, 0, []⟩]⟩, rx_queue := [], subscriptions := [] } :
        QueueOnlyDriver 1 1).transmit ⟨1, 1, [1]⟩ 0
      = ({ tx_queue := ⟨[⟨0, 0, []⟩]⟩, rx_queue := [], subscriptions := [] },
          Except.error NbError.wouldBlock) :=
  c6_transmit_full_reports_would_block
    { tx_queue := ⟨[⟨0, 0, []⟩]⟩, rx_queue := [], subscriptions := [] }
    ⟨1, 1, [1]⟩ 0 rfl

/-- C7: receive never blocks: on an empty receive queue it returns the
WouldBlock signal immediately and leaves the driver unchanged; otherwise it
removes and returns the frame at the front of the receive queue. -/
theorem c7_receive_nonblocking {TC RC : Nat} (d : QueueOnlyDriver TC RC)
    (now : Nat) :
    (d.rx_queue = [] → d.receive now = (d, Except.error NbError.wouldBlock))
    ∧ ∀ f rest, d.rx_queue = f :: rest →
        d.receive now = ({ d with rx_queue := rest }, Except.ok f) := by
  obtain ⟨tx, rx, su⟩ := d
  constructor
  · intro h
    cases rx with
    | nil => rfl
    | cons a l => simp at h
  · intro f rest h
    cases rx with
    | nil => simp at h
    | cons a l =>
      simp only [List.cons.injEq] at h
      obtain ⟨rfl, rfl⟩ := h
      rfl

/-- Witness for C7: the empty and nonempty cases on concrete drivers. -/
theorem c7_receive_nonblocking_witness :
    (QueueOnlyDriver.new : QueueOnlyDriver 1 1).receive 0
      = (QueueOnlyDriver.new, Except.error NbError.wouldBlock)
    ∧ ({ tx_queue := ArrayQueue.new, rx_queue := [⟨0, 5, []⟩],
          subscriptions := [] } : QueueOnlyDriver 1 1).receive 0
      = ({ tx_queue := ArrayQueue.new, rx_queue := [], subscriptions := [] },
          Except.ok ⟨0, 5, []⟩) :=
  ⟨(c7_receive_nonblocking QueueOnlyDriver.new 0).1 rfl,
    (c7_receive_nonblocking
      { tx_queue := ArrayQueue.new, rx_queue := [⟨0, 5, []⟩],
        subscriptions := [] } 0).2 ⟨0, 5, []⟩ [] rfl⟩

/-- C8: when the receive queue already holds RC frames, push_rx_frame returns
OutOfMemoryError and leaves the driver unchanged, so the queue never grows
beyond its bound and the existing entries are untouched. -/
theorem c8_push_rx_frame_full_queue {TC RC : Nat} (d : QueueOnlyDriver TC RC)
    (f : Frame) (h : d.rx_queue.length = RC) :
    d.push_rx_frame f = (d, Except.error OutOfMemoryError.mk)
    ∧ (d.push_rx_frame f).1.rx_queue = d.rx_queue := by
  have hnot : ¬ d.rx_queue.length < RC := by omega
  constructor
  · simp [QueueOnlyDriver.push_rx_frame, if_neg hnot]
  · simp [QueueOnlyDriver.push_rx_frame, if_neg hnot]

/-- Witness for C8 on a full capacity-2 receive queue. -/
theorem c8_push_rx_frame_full_queue_witness :
    ({ tx_queue := ArrayQueue.new, rx_queue := [⟨0, 1, []⟩, ⟨0, 2, []⟩],
        subscriptions := [] } : QueueOnlyDriver 1 2).push_rx_frame ⟨0, 3, []⟩
      = ({ tx_queue := ArrayQueue.new, rx_queue := [⟨0, 1, []⟩, ⟨0, 2, []⟩],
            subscriptions := [] }, Except.error OutOfMemoryError.mk)
    ∧ (({ tx_queue := ArrayQueue.new, rx_queue := [⟨0, 1, []⟩, ⟨0, 2, []⟩],
          subscriptions := [] } : QueueOnlyDriver 1 2).push_rx_frame
        ⟨0, 3, []⟩).1.rx_queue = [⟨0, 1, []⟩, ⟨0, 2, []⟩] :=
  c8_push_rx_frame_full_queue
    { tx_queue := ArrayQueue.new, rx_queue := [⟨0, 1, []⟩, ⟨0, 2, []⟩],
      subscriptions := [] } ⟨0, 3, []⟩ rfl

/-- C9: get_and_increment for any destination d changes only the counter
stored for d: for every destination d' distinct from d, whenever the call
completes with a resulting ledger state, the stored next-transfer-ID for d'
in that state is unchanged.  (At d = NodeId::MAX the call panics before
writing anything, so there is no resulting state and no counter changes.) -/
theorem c9_get_and_increment_frame_effect (m : NextTransferIds)
    (d d' : NodeId) (hne : d' ≠ d) (p : TransferId × NextTransferIds)
    (hcall : m.get_and_increment d = some p) :
    p.2.ids[usizeFrom d']? = m.ids[usizeFrom d']? := by
  have hv : usizeFrom d ≠ usizeFrom d' := fun hv =>
    hne (NodeId.val_injective hv.symm)
  simp only [NextTransferIds.get_and_increment] at hcall
  split at hcall
  · obtain rfl := Option.some.inj hcall
    exact List.getElem?_set_ne hv
  · exact Option.noConfusion hcall

/-- Witness for C9: incrementing destination 2 leaves destination 3 alone. -/
theorem c9_get_and_increment_frame_effect_witness :
    (NextTransferIds.mk ((List.replicate 127 0).set 2 1)).ids[usizeFrom
        ⟨3, by decide⟩]?
      = NextTransferIds.new.ids[usizeFrom ⟨3, by decide⟩]? :=
  c9_get_and_increment_frame_effect NextTransferIds.new ⟨2, by decide⟩
    ⟨3, by decide⟩
    (fun hcon => absurd (congrArg NodeId.val hcon) (by decide))
    (0, ⟨(List.replicate 127 0).set 2 1⟩) rfl

/-- C10: the receive path is FIFO: for any sequence of push_rx_frame and
receive calls against a fresh driver, the frames returned by receive (in
order) followed by the frames still queued are exactly the successfully
pushed frames in push order, so receive delivers the pushed frames in push
order, each at most once. -/
theorem c10_rx_fifo {TC RC : Nat} (ops : List RxOp) :
    (runRx (QueueOnlyDriver.new : QueueOnlyDriver TC RC) ops).2.1
        ++ (runRx (QueueOnlyDriver.new : QueueOnlyDriver TC RC) ops).1.rx_queue
      = (runRx (QueueOnlyDriver.new : QueueOnlyDriver TC RC) ops).2.2 := by
  have h := runRx_inv ops (QueueOnlyDriver.new : QueueOnlyDriver TC RC)
  simpa [QueueOnlyDriver.new] using h
